import Mathlib

/-!
Shallow embedding of `src/blackjack.py` (Chinese Blackjack Monte-Carlo
simulator), final revision `src/src/blackjack.py`.  Python classes become
structures, methods become functions, in-place mutation becomes explicit
state passing, and the fallible `deque.popleft` becomes `Option`.
-/

namespace Blackjack

/-- `Card.Suit = Enum('Suit', "Diamonds Clubs Hearts Spades")`. -/
inductive Suit : Type
  | Diamonds | Clubs | Hearts | Spades
deriving DecidableEq, Repr, Inhabited

/-- `Card.Value = Enum('Value', "2 3 4 5 6 7 8 9 10 J Q K A")`.
Numeric rank names are prefixed with `v` (Lean identifiers cannot be bare
digits). -/
inductive Value : Type
  | v2 | v3 | v4 | v5 | v6 | v7 | v8 | v9 | v10 | J | Q | K | A
deriving DecidableEq, Repr, Inhabited

/-- `int(card.value.name)` for the numeric ranks `'2'..'10'`.  In
`hand_value` this conversion is reached only in the final `else` branch,
i.e. only for numeric ranks; the value given here to J/Q/K/A is never used
(Python would raise `ValueError` on them). -/
def Value.numericValue : Value → Nat
  | .v2 => 2
  | .v3 => 3
  | .v4 => 4
  | .v5 => 5
  | .v6 => 6
  | .v7 => 7
  | .v8 => 8
  | .v9 => 9
  | .v10 => 10
  | .J => 0
  | .Q => 0
  | .K => 0
  | .A => 0

/-- `class Card`: an immutable (value, suit) pair. -/
structure Card : Type where
  value : Value
  suit : Suit
deriving DecidableEq, Repr, Inhabited

/-- `Hand.State`: `OPEN` (resolved, cards shown) or `CLOSED`. -/
inductive HandState : Type
  | OPEN | CLOSED
deriving DecidableEq, Repr, Inhabited

/-- `class Hand`: an ordered list of cards plus a visibility state. -/
structure Hand : Type where
  cards : List Card
  state : HandState
deriving DecidableEq, Repr, Inhabited

/-- `Hand.clear`: `self.cards = []; self.state = CLOSED`. -/
def Hand.clear (_h : Hand) : Hand :=
  { cards := [], state := HandState.CLOSED }

/-- A `Deck` is the deque of remaining cards (`self.cards`); order is the
shuffled draw order. -/
abbrev Deck : Type := List Card

/-- `Deck.draw`: `return self.cards.popleft()`.  `popleft` on an empty
deque raises `IndexError` (the failure the spec names `DeckExhausted`);
modelled as `none`.  On a non-empty deque it removes and returns the front
card. -/
def Deck.draw : Deck → Option (Card × Deck)
  | [] => none
  | c :: rest => some (c, rest)

/-- `Hand.draw_one`: `self.cards.append(deck.draw())` — append the drawn
card to the hand; fails (propagating the empty-deck error) when the deck is
empty. -/
def Hand.draw_one (h : Hand) (d : Deck) : Option (Hand × Deck) :=
  match Deck.draw d with
  | none => none
  | some (c, rest) => some ({ h with cards := h.cards ++ [c] }, rest)

namespace ChineseBlackjackRuleset

/-- One iteration of the `for card in hand.cards` loop of
`ChineseBlackjackRuleset.hand_value`.  `n` is `len(hand)` — the Python code
tests the CURRENT TOTAL hand length for every ace, not the ace's draw
position.  The face-card test `card.value.name in ['J','Q','K']` compares
name strings and so behaves as ordinary rank membership. -/
def cardStep (n : Nat) (value : Nat) (card : Card) : Nat :=
  if card.value = Value.J ∨ card.value = Value.Q ∨ card.value = Value.K then
    value + 10
  else if card.value = Value.A then
    (if n ≤ 2 then value + 11
     else if n = 3 then (if value + 10 < 21 then value + 10 else value + 1)
     else value + 1)
  else
    value + card.value.numericValue

/-- `ChineseBlackjackRuleset.hand_value`: fold `cardStep` over the cards in
draw order starting from `value = 0`, with `n = len(hand)` fixed to the
whole hand's length. -/
def hand_value (hand : Hand) : Nat :=
  hand.cards.foldl (cardStep hand.cards.length) 0

/-- The Python test `hand.cards[0].value in ['8', '9', '10', 'J', 'Q', 'K']`
on line 451 compares a `Card.Value` ENUM MEMBER against a list of `str`:
in Python an enum member never equals a string, so this membership test is
`False` for every rank (unlike `hand_value`, which correctly compares
`card.value.name`, a string).  Modelled faithfully as the constant-false
test it evaluates to, keeping the operands visible. -/
def valueInRankNames (_v : Value) (_names : List String) : Bool :=
  false

/-- `ChineseBlackjackRuleset.payout_multiplier`: sequential early-return
`if`s become nested `if`-`else`.  `hand.cards.headI`/`getD 1` stand for the
`hand.cards[0]`/`hand.cards[1]` reads, which the `len(hand) == 2` guard
keeps in bounds. -/
def payout_multiplier (hand : Hand) : Nat :=
  if hand.cards.length = 5 then
    (if hand_value hand = 21 then 3 else 2)
  else if hand_value hand = 21 then
    (if hand.cards.length = 2 ∧ (∀ c ∈ hand.cards, c.value = Value.A) then 3
     else 2)
  else if hand.cards.length = 2 ∧ hand.cards.headI.value = (hand.cards.getD 1 default).value
      ∧ valueInRankNames hand.cards.headI.value ["8", "9", "10", "J", "Q", "K"] = true then
    2
  else
    1

/-- The per-card contribution of a non-ace card in `hand_value`: 10 for
J/Q/K, the face value for a numeric rank.  For every non-ace card,
`cardStep` adds exactly this amount, independently of the hand length `n`
and of the running total — so an ace-free hand's value is the sum of these
contributions. -/
def fixedContribution (c : Card) : Nat :=
  if c.value = Value.J ∨ c.value = Value.Q ∨ c.value = Value.K then 10
  else c.value.numericValue

end ChineseBlackjackRuleset

/-- `class PlayerHistory`.  The `win` field receives Python `True`, `False`
or `None` (`None` from the `RUN` action), hence `Option Bool`: `some b` for
a bool, `none` for `None`. -/
structure PlayerHistory : Type where
  win : Option Bool
  hand : Hand
  bet : Int
  new_bankroll : Int
  profit : Int
deriving DecidableEq, Repr

/-- `class DealerHistory`. -/
structure DealerHistory : Type where
  hand : Hand
  round_wins : Nat
  round_losses : Nat
  round_draws : Nat
  new_bankroll : Int
  profit : Int
deriving DecidableEq, Repr

/-- The mutable state of a `Player` (strategy objects are stateless and
queried externally, so they are not part of the state). -/
structure PlayerState : Type where
  bankroll : Int
  curr_bet : Int
  bust : Bool
  hand : Hand
  history : List PlayerHistory
deriving DecidableEq, Repr

/-- The mutable state of the `Dealer`.  `round_wins`/`round_losses`/
`round_draws`/`round_profit` are the per-round tallies set in `__init__`
and updated by `RESOLVE`.  `wins`/`losses`/`draws` are the DISTINCT
attributes that `Dealer.reset` assigns (`self.wins = 0` etc.); they are
created by the first `reset` call and never read anywhere, but they are kept
here so that `reset` can be translated exactly as written. -/
structure DealerState : Type where
  bankroll : Int
  bust : Bool
  hand : Hand
  round_wins : Nat
  round_losses : Nat
  round_draws : Nat
  round_profit : Int
  wins : Nat
  losses : Nat
  draws : Nat
  history : List DealerHistory
deriving DecidableEq, Repr

/-- `Dealer.reset` (lines 221–227): clears the hand and bust flag and zeroes
`round_profit`, but assigns `self.wins`, `self.losses`, `self.draws` — NOT
`round_wins`/`round_losses`/`round_draws`, which are left untouched. -/
def Dealer.reset (d : DealerState) : DealerState :=
  { d with hand := d.hand.clear,
           wins := 0,
           losses := 0,
           draws := 0,
           round_profit := 0,
           bust := false }

/-- Python `not x` applied to a `bool | None` value: `not None` evaluates to
`True` (None is falsy). -/
def pyNot : Option Bool → Bool
  | none => true
  | some b => !b

/-- Python truthiness of a `bool | None` value, as used by the conditional
expression `(-1 if dealer_win else 1)`: only `True` is truthy. -/
def pyTruthy : Option Bool → Bool
  | some true => true
  | _ => false

/-- The branch part of `Dealer.action` for `RESOLVE` (lines 242–268): picks
the winner, moves the winnings between the two bankrolls and updates the
dealer's round tallies, returning the updated states together with
`dealer_win` (initialised `None`) and `winnings` (initialised `0`).
Inside `Dealer.action` the Python code reads `dealer.bust` — the module
GLOBAL `dealer` — instead of `self.bust`; in every run of the program the
global `dealer` is the very object the method runs on, so it is translated
as the dealer's own bust flag. -/
def resolveOutcome (d : DealerState) (p : PlayerState) :
    DealerState × PlayerState × Option Bool × Int :=
  let dealer_hand_value := ChineseBlackjackRuleset.hand_value d.hand
  let player_hand_value := ChineseBlackjackRuleset.hand_value p.hand
  if (dealer_hand_value > player_hand_value ∧ d.bust = false)
      ∨ (p.bust = true ∧ d.bust = false) then
    -- dealer win
    let payout_mult := ChineseBlackjackRuleset.payout_multiplier d.hand
    let winnings : Int := (payout_mult : Int) * p.curr_bet
    ({ d with bankroll := d.bankroll + winnings,
              round_profit := d.round_profit + winnings,
              round_wins := d.round_wins + 1 },
     { p with bankroll := p.bankroll - winnings },
     some true, winnings)
  else if (player_hand_value > dealer_hand_value ∧ p.bust = false)
      ∨ (d.bust = true ∧ p.bust = false) then
    -- player win
    let payout_mult := ChineseBlackjackRuleset.payout_multiplier p.hand
    let winnings : Int := (payout_mult : Int) * p.curr_bet
    ({ d with bankroll := d.bankroll - winnings,
              round_losses := d.round_losses + 1,
              round_profit := d.round_profit - winnings },
     { p with bankroll := p.bankroll + winnings },
     some false, winnings)
  else
    -- else push
    ({ d with round_draws := d.round_draws + 1 }, p, none, 0)

/-- `Dealer.action` for `RESOLVE` (lines 240–274): after the outcome branch,
append `PlayerHistory(not dealer_win, target_player.hand,
target_player.curr_bet, target_player.bankroll,
winnings * (-1 if dealer_win else 1))` to the target player's history and
set the target's hand state to `OPEN`.  (Python appends a reference to the
live `Hand` object, which the next line then opens; the record here
snapshots the hand at append time — no claim concerns the snapshot.) -/
def Dealer.resolve (d : DealerState) (p : PlayerState) :
    DealerState × PlayerState :=
  match resolveOutcome d p with
  | (d', p', dealer_win, winnings) =>
    let entry : PlayerHistory :=
      { win := some (pyNot dealer_win),
        hand := p'.hand,
        bet := p'.curr_bet,
        new_bankroll := p'.bankroll,
        profit := winnings * (if pyTruthy dealer_win then -1 else 1) }
    (d', { p' with history := p'.history ++ [entry],
                   hand := { p'.hand with state := HandState.OPEN } })

/-- The final statement of `Game._dealer_turn` (line 337): after the loop,
append `DealerHistory(dealer.hand, dealer.round_wins, dealer.round_losses,
dealer.round_draws, dealer.bankroll, dealer.round_profit)`.  (Like the
resolve branch, this line reads the module global `dealer`, which is the
session's dealer object in every run.) -/
def dealerAppendRoundHistory (d : DealerState) : DealerState :=
  { d with history := d.history ++
      [{ hand := d.hand,
         round_wins := d.round_wins,
         round_losses := d.round_losses,
         round_draws := d.round_draws,
         new_bankroll := d.bankroll,
         profit := d.round_profit }] }

/-- The participants of a session: the player list and the dealer (the part
of the session state a `Game` reads and mutates). -/
structure Table : Type where
  players : List PlayerState
  dealer : DealerState
deriving Repr

/-- `class Session`: remaining state around the table.  `games_played` is
`self.games_played`, incremented once per completed round. -/
structure SessionState : Type where
  table : Table
  games_played : Nat
deriving Repr

/-- One iteration of the `Session.simulate` loop body (lines 355–362) with
`Game(...)/game.play()` abstracted as a table transformer `playRound`
(a round's effect depends on the freshly shuffled deck and the injected
strategies, which the spec treats as external collaborators): play the
round, increment `games_played`, then drop players whose bankroll is not
`> 0`. -/
def sessionStep (playRound : Table → Table) (s : SessionState) : SessionState :=
  let t := playRound s.table
  { table := { t with players := t.players.filter (fun p => p.bankroll > 0) },
    games_played := s.games_played + 1 }

/-- `Session.simulate` (lines 353–366): run at most `n` rounds
(`for i in range(self.no_games)`); after each round, if the dealer's
bankroll is `< 0`, `return` immediately. -/
def Session.simulate (playRound : Table → Table) : Nat → SessionState → SessionState
  | 0, s => s
  | n + 1, s =>
    if (sessionStep playRound s).table.dealer.bankroll < 0 then
      sessionStep playRound s
    else
      Session.simulate playRound n (sessionStep playRound s)

/-- A concrete push scenario: dealer holds 10♦ 7♦ (value 17, not bust). -/
def pushDealer : DealerState :=
  { bankroll := 100, bust := false,
    hand := ⟨[⟨Value.v10, Suit.Diamonds⟩, ⟨Value.v7, Suit.Diamonds⟩], HandState.CLOSED⟩,
    round_wins := 0, round_losses := 0, round_draws := 0, round_profit := 0,
    wins := 0, losses := 0, draws := 0, history := [] }

/-- A concrete push scenario: the target player holds 10♥ 7♥ (value 17, not
bust), with a bet of 10 — neither side wins, so the `RESOLVE` falls through
to the push branch. -/
def pushPlayer : PlayerState :=
  { bankroll := 100, curr_bet := 10, bust := false,
    hand := ⟨[⟨Value.v10, Suit.Hearts⟩, ⟨Value.v7, Suit.Hearts⟩], HandState.CLOSED⟩,
    history := [] }

/-- A concrete round effect for exercising the session loop: each round
costs the dealer 1 from the bankroll. -/
def drainRound (t : Table) : Table :=
  { t with dealer := { t.dealer with bankroll := t.dealer.bankroll - 1 } }

/-- A concrete session start state whose dealer has bankroll 0 (so one
`drainRound` round bankrupts the dealer). -/
def sessionStart : SessionState :=
  { table := { players := [],
               dealer := { bankroll := 0, bust := false,
                           hand := ⟨[], HandState.CLOSED⟩,
                           round_wins := 0, round_losses := 0, round_draws := 0,
                           round_profit := 0, wins := 0, losses := 0, draws := 0,
                           history := [] } },
    games_played := 0 }

/-! ## Helper lemmas about `hand_value` -/

/-- For a non-ace card, one loop step of `hand_value` adds the card's fixed
contribution, whatever the hand length and the running total are. -/
theorem cardStep_nonAce (n v : Nat) (c : Card) (hc : c.value ≠ Value.A) :
    ChineseBlackjackRuleset.cardStep n v c
      = v + ChineseBlackjackRuleset.fixedContribution c := by
  unfold ChineseBlackjackRuleset.cardStep ChineseBlackjackRuleset.fixedContribution
  by_cases hf : c.value = Value.J ∨ c.value = Value.Q ∨ c.value = Value.K
  · simp [hf]
  · simp [hf, hc]

/-- Folding the `hand_value` loop over ace-free cards sums their fixed
contributions. -/
theorem foldl_cardStep_nonAce (n : Nat) (l : List Card)
    (hl : ∀ c ∈ l, c.value ≠ Value.A) (a : Nat) :
    l.foldl (ChineseBlackjackRuleset.cardStep n) a
      = a + (l.map ChineseBlackjackRuleset.fixedContribution).sum := by
  induction l generalizing a with
  | nil => simp
  | cons c t ih =>
    have hc : c.value ≠ Value.A := hl c (by simp)
    have ht : ∀ x ∈ t, x.value ≠ Value.A := fun x hx => hl x (by simp [hx])
    simp only [List.foldl_cons, List.map_cons, List.sum_cons,
      cardStep_nonAce n a c hc, ih ht]
    omega

/-- An ace-free hand's value is the sum of its cards' fixed contributions. -/
theorem hand_value_noAce (h : Hand) (hl : ∀ c ∈ h.cards, c.value ≠ Value.A) :
    ChineseBlackjackRuleset.hand_value h
      = (h.cards.map ChineseBlackjackRuleset.fixedContribution).sum := by
  unfold ChineseBlackjackRuleset.hand_value
  simpa using foldl_cardStep_nonAce h.cards.length h.cards hl 0

/-! ## Claims -/

/-- Claim C1, counterexample: for the concrete 2-card hand A♦ A♣ the
computed hand value is 22, so the `hand_value(hand) == 21` gate fails and
`payout_multiplier` does NOT return 3 — the claim "payout_multiplier
returns 3" is false on the code. -/
theorem C1_counterexample :
    ChineseBlackjackRuleset.hand_value
        ⟨[⟨Value.A, Suit.Diamonds⟩, ⟨Value.A, Suit.Clubs⟩], HandState.CLOSED⟩ = 22 ∧
    ChineseBlackjackRuleset.payout_multiplier
        ⟨[⟨Value.A, Suit.Diamonds⟩, ⟨Value.A, Suit.Clubs⟩], HandState.CLOSED⟩ ≠ 3 := by
  decide

/-- Claim C1 (amended): for every 2-card hand of two Aces, `hand_value`
computes 22, so the literal two-Ace special-case branch (gated on
`hand_value(hand) == 21`) is unreachable and `payout_multiplier` returns 1
(the enum-vs-string pair test on line 451 also never fires). -/
theorem C1_two_aces_payout (s₁ s₂ : Suit) (st : HandState) :
    ChineseBlackjackRuleset.hand_value ⟨[⟨Value.A, s₁⟩, ⟨Value.A, s₂⟩], st⟩ = 22 ∧
    ChineseBlackjackRuleset.payout_multiplier ⟨[⟨Value.A, s₁⟩, ⟨Value.A, s₂⟩], st⟩ = 1 := by
  cases s₁ <;> cases s₂ <;> cases st <;> decide

/-- Claim C2: `hand_value` is order-sensitive for Aces — for every 3-card
hand whose first two cards are non-Aces whose contributions sum to 12 and
whose third card is an Ace, the value (13) differs from the value of the
same cards with the Ace first (22). -/
theorem C2_hand_value_order_sensitive (c₁ c₂ a : Card) (st st' : HandState)
    (h₁ : c₁.value ≠ Value.A) (h₂ : c₂.value ≠ Value.A)
    (h₁₂ : ChineseBlackjackRuleset.fixedContribution c₁
        + ChineseBlackjackRuleset.fixedContribution c₂ = 12)
    (ha : a.value = Value.A) :
    ChineseBlackjackRuleset.hand_value ⟨[c₁, c₂, a], st⟩ ≠
    ChineseBlackjackRuleset.hand_value ⟨[a, c₁, c₂], st'⟩ := by
  have hA_notface : ¬(a.value = Value.J ∨ a.value = Value.Q ∨ a.value = Value.K) := by
    simp [ha]
  have lhs : ChineseBlackjackRuleset.hand_value ⟨[c₁, c₂, a], st⟩ = 13 := by
    show List.foldl (ChineseBlackjackRuleset.cardStep 3) 0 [c₁, c₂, a] = 13
    rw [List.foldl_cons, List.foldl_cons, List.foldl_cons, List.foldl_nil,
      cardStep_nonAce 3 0 c₁ h₁, cardStep_nonAce 3 _ c₂ h₂]
    have h12 : 0 + ChineseBlackjackRuleset.fixedContribution c₁
        + ChineseBlackjackRuleset.fixedContribution c₂ = 12 := by omega
    rw [h12]
    unfold ChineseBlackjackRuleset.cardStep
    rw [if_neg hA_notface, if_pos ha]
    norm_num
  have rhs : ChineseBlackjackRuleset.hand_value ⟨[a, c₁, c₂], st'⟩ = 22 := by
    show List.foldl (ChineseBlackjackRuleset.cardStep 3) 0 [a, c₁, c₂] = 22
    have ha1 : ChineseBlackjackRuleset.cardStep 3 0 a = 10 := by
      unfold ChineseBlackjackRuleset.cardStep
      rw [if_neg hA_notface, if_pos ha]
      norm_num
    rw [List.foldl_cons, ha1, List.foldl_cons, List.foldl_cons, List.foldl_nil,
      cardStep_nonAce 3 10 c₁ h₁, cardStep_nonAce 3 _ c₂ h₂]
    omega
  rw [lhs, rhs]
  decide

/-- Claim C2, witness: the hand 6♦ 6♣ A♥ (value 13) differs from
A♥ 6♦ 6♣ (value 22). -/
theorem C2_witness :
    ChineseBlackjackRuleset.hand_value
        ⟨[⟨Value.v6, Suit.Diamonds⟩, ⟨Value.v6, Suit.Clubs⟩, ⟨Value.A, Suit.Hearts⟩],
          HandState.CLOSED⟩ ≠
    ChineseBlackjackRuleset.hand_value
        ⟨[⟨Value.A, Suit.Hearts⟩, ⟨Value.v6, Suit.Diamonds⟩, ⟨Value.v6, Suit.Clubs⟩],
          HandState.CLOSED⟩ :=
  C2_hand_value_order_sensitive _ _ _ _ _ (by decide) (by decide) (by decide) (by decide)

/-- Claim C3: the pair-bonus branch compares the `Card.Value` enum member
against the strings `['8','9','10','J','Q','K']`, which is always false in
Python, so a same-rank 2-card hand of 8s pays 1, not the claimed 2 — shown
here by evaluating the code at the failing input 8·8 (value 16 ≠ 21). -/
theorem C3_pair_rank_bonus_dead (s₁ s₂ : Suit) (st : HandState) :
    ChineseBlackjackRuleset.hand_value ⟨[⟨Value.v8, s₁⟩, ⟨Value.v8, s₂⟩], st⟩ = 16 ∧
    ChineseBlackjackRuleset.payout_multiplier ⟨[⟨Value.v8, s₁⟩, ⟨Value.v8, s₂⟩], st⟩ = 1 := by
  cases s₁ <;> cases s₂ <;> cases st <;> decide

/-- Claim C10: for every hand with no Aces, `hand_value` is the sum of
fixed per-card contributions (J/Q/K ↦ 10, numeric ranks ↦ face value), and
is therefore invariant under every permutation of the cards. -/
theorem C10_noAce_hand_value (h h₂ : Hand)
    (hna : ∀ c ∈ h.cards, c.value ≠ Value.A) :
    ChineseBlackjackRuleset.hand_value h
        = (h.cards.map ChineseBlackjackRuleset.fixedContribution).sum ∧
    (h.cards.Perm h₂.cards →
      ChineseBlackjackRuleset.hand_value h = ChineseBlackjackRuleset.hand_value h₂) := by
  refine ⟨hand_value_noAce h hna, fun hp => ?_⟩
  have hna₂ : ∀ c ∈ h₂.cards, c.value ≠ Value.A := fun c hc => hna c (hp.symm.subset hc)
  rw [hand_value_noAce h hna, hand_value_noAce h₂ hna₂]
  exact List.Perm.sum_eq (hp.map _)

/-- Claim C10, witness: the hand 2♦ K♣ evaluates to the contribution sum,
and equals the value of its reversal K♣ 2♦ (even with a different hand
state). -/
theorem C10_witness :
    ChineseBlackjackRuleset.hand_value
        ⟨[⟨Value.v2, Suit.Diamonds⟩, ⟨Value.K, Suit.Clubs⟩], HandState.CLOSED⟩
      = ([⟨Value.v2, Suit.Diamonds⟩, ⟨Value.K, Suit.Clubs⟩].map
          ChineseBlackjackRuleset.fixedContribution).sum ∧
    ChineseBlackjackRuleset.hand_value
        ⟨[⟨Value.v2, Suit.Diamonds⟩, ⟨Value.K, Suit.Clubs⟩], HandState.CLOSED⟩
      = ChineseBlackjackRuleset.hand_value
        ⟨[⟨Value.K, Suit.Clubs⟩, ⟨Value.v2, Suit.Diamonds⟩], HandState.OPEN⟩ :=
  ⟨(C10_noAce_hand_value
      ⟨[⟨Value.v2, Suit.Diamonds⟩, ⟨Value.K, Suit.Clubs⟩], HandState.CLOSED⟩
      ⟨[⟨Value.K, Suit.Clubs⟩, ⟨Value.v2, Suit.Diamonds⟩], HandState.OPEN⟩
      (by decide)).1,
   (C10_noAce_hand_value
      ⟨[⟨Value.v2, Suit.Diamonds⟩, ⟨Value.K, Suit.Clubs⟩], HandState.CLOSED⟩
      ⟨[⟨Value.K, Suit.Clubs⟩, ⟨Value.v2, Suit.Diamonds⟩], HandState.OPEN⟩
      (by decide)).2 (by decide)⟩

/-- Claim C4: settlement is zero-sum — for every `RESOLVE`, the dealer's
bankroll delta is the negation of the target player's bankroll delta
(including the push case, where both deltas are zero). -/
theorem C4_resolve_zero_sum (d : DealerState) (p : PlayerState) :
    (Dealer.resolve d p).1.bankroll - d.bankroll
      = -((Dealer.resolve d p).2.bankroll - p.bankroll) := by
  unfold Dealer.resolve resolveOutcome
  dsimp only
  split
  · dsimp only
    ring
  · split
    · dsimp only
      ring
    · dsimp only
      ring

/-- Claim C5, counterexample: drawing a card can strictly DECREASE the
hand's value — `A♦ 2♦ 3♦` has value 15 (the Ace counts 10 in a 3-card
hand), but after drawing 2♣ the 4-card hand `A♦ 2♦ 3♦ 2♣` has value 8
(every Ace in a more-than-3-card hand counts 1): the claimed monotonicity
of `hand_value` under `draw_one` is false on the code. -/
theorem C5_counterexample :
    Hand.draw_one
        ⟨[⟨Value.A, Suit.Diamonds⟩, ⟨Value.v2, Suit.Diamonds⟩,
          ⟨Value.v3, Suit.Diamonds⟩], HandState.CLOSED⟩
        [⟨Value.v2, Suit.Clubs⟩]
      = some (⟨[⟨Value.A, Suit.Diamonds⟩, ⟨Value.v2, Suit.Diamonds⟩,
          ⟨Value.v3, Suit.Diamonds⟩, ⟨Value.v2, Suit.Clubs⟩], HandState.CLOSED⟩, []) ∧
    ChineseBlackjackRuleset.hand_value
        ⟨[⟨Value.A, Suit.Diamonds⟩, ⟨Value.v2, Suit.Diamonds⟩,
          ⟨Value.v3, Suit.Diamonds⟩], HandState.CLOSED⟩ = 15 ∧
    ChineseBlackjackRuleset.hand_value
        ⟨[⟨Value.A, Suit.Diamonds⟩, ⟨Value.v2, Suit.Diamonds⟩,
          ⟨Value.v3, Suit.Diamonds⟩, ⟨Value.v2, Suit.Clubs⟩], HandState.CLOSED⟩ = 8 := by
  decide

/-- Claim C5 (amended): within a round, a `draw_one` always increases the
card count by exactly 1 (so the count is monotonically non-decreasing), and
for hands containing no Aces the hand value is monotonically non-decreasing
as well; with Aces the value can decrease, because `hand_value` revalues
every Ace from the new total hand length. -/
theorem C5_draw_monotone (h h' : Hand) (d d' : Deck)
    (hdraw : Hand.draw_one h d = some (h', d')) :
    h'.cards.length = h.cards.length + 1 ∧
    ((∀ c ∈ h'.cards, c.value ≠ Value.A) →
      ChineseBlackjackRuleset.hand_value h ≤ ChineseBlackjackRuleset.hand_value h') := by
  cases d with
  | nil => simp [Hand.draw_one, Deck.draw] at hdraw
  | cons c rest =>
    simp only [Hand.draw_one, Deck.draw, Option.some.injEq, Prod.mk.injEq] at hdraw
    obtain ⟨hh, hd⟩ := hdraw
    subst hh
    constructor
    · simp
    · intro hna
      have hnaOld : ∀ x ∈ h.cards, x.value ≠ Value.A := by
        intro x hx
        exact hna x (by simp [hx])
      rw [hand_value_noAce h hnaOld, hand_value_noAce _ hna]
      simp only [List.map_append, List.sum_append]
      exact Nat.le_add_right _ _

/-- Claim C5, witness: drawing 3♣ onto the ace-free hand 2♦ grows the count
from 1 to 2 and does not decrease the value. -/
theorem C5_witness :
    (⟨[⟨Value.v2, Suit.Diamonds⟩, ⟨Value.v3, Suit.Clubs⟩], HandState.CLOSED⟩ : Hand).cards.length
      = (⟨[⟨Value.v2, Suit.Diamonds⟩], HandState.CLOSED⟩ : Hand).cards.length + 1 ∧
    ChineseBlackjackRuleset.hand_value ⟨[⟨Value.v2, Suit.Diamonds⟩], HandState.CLOSED⟩
      ≤ ChineseBlackjackRuleset.hand_value
          ⟨[⟨Value.v2, Suit.Diamonds⟩, ⟨Value.v3, Suit.Clubs⟩], HandState.CLOSED⟩ :=
  ⟨(C5_draw_monotone ⟨[⟨Value.v2, Suit.Diamonds⟩], HandState.CLOSED⟩ _
      [⟨Value.v3, Suit.Clubs⟩] [] (by decide)).1,
   (C5_draw_monotone ⟨[⟨Value.v2, Suit.Diamonds⟩], HandState.CLOSED⟩ _
      [⟨Value.v3, Suit.Clubs⟩] [] (by decide)).2 (by decide)⟩

/-- Claim C6: evaluating `RESOLVE` at a concrete push (dealer 10♦ 7♦ = 17,
player 10♥ 7♥ = 17, neither bust): no bankroll changes and `round_draws`
increments by 1 as claimed, but the appended `PlayerHistory` records
`win = True` (because `not dealer_win` with `dealer_win = None` evaluates
to `True`) with profit 0 — indistinguishable from a player win, so the
claimed distinct `Push` outcome is never recorded. -/
theorem C6_push_entry :
    (Dealer.resolve pushDealer pushPlayer).1.bankroll = pushDealer.bankroll ∧
    (Dealer.resolve pushDealer pushPlayer).2.bankroll = pushPlayer.bankroll ∧
    (Dealer.resolve pushDealer pushPlayer).1.round_draws = pushDealer.round_draws + 1 ∧
    (Dealer.resolve pushDealer pushPlayer).2.history.map (fun e => (e.win, e.profit))
      = [(some true, 0)] := by
  decide

/-- Claim C7: `Dealer.reset` assigns `self.wins`, `self.losses` and
`self.draws` — attributes distinct from the `round_wins`/`round_losses`/
`round_draws` tallies it was meant to clear — so the per-round win/loss/draw
tallies survive the between-round reset unchanged (only `round_profit` is
zeroed) and dealer history entries record counts accumulated over ALL
rounds so far, not the single round's. -/
theorem C7_reset_keeps_round_tallies (d : DealerState) :
    (Dealer.reset d).round_wins = d.round_wins ∧
    (Dealer.reset d).round_losses = d.round_losses ∧
    (Dealer.reset d).round_draws = d.round_draws ∧
    (Dealer.reset d).round_profit = 0 ∧
    (Dealer.reset d).wins = 0 ∧ (Dealer.reset d).losses = 0 ∧ (Dealer.reset d).draws = 0 :=
  ⟨rfl, rfl, rfl, rfl, rfl, rfl, rfl⟩

/-- Claim C9: `Deck.draw` on a non-empty deck removes and returns the front
card, strictly decreasing the deck size, and on the empty deck returns the
defined failure (`none`, the IndexError the spec names DeckExhausted)
rather than anything undefined. -/
theorem C9_deck_draw (c : Card) (rest : Deck) :
    Deck.draw (c :: rest) = some (c, rest) ∧
    rest.length < (c :: rest).length ∧
    Deck.draw ([] : Deck) = none :=
  ⟨rfl, by simp, rfl⟩

/-- One session round increments `games_played` by exactly 1. -/
theorem sessionStep_games_played (playRound : Table → Table) (s : SessionState) :
    (sessionStep playRound s).games_played = s.games_played + 1 := rfl

/-- `simulate` plays at most `n` rounds: `games_played` grows by at most
`n`. -/
theorem simulate_games_played_le (playRound : Table → Table) :
    ∀ (n : Nat) (s : SessionState),
      (Session.simulate playRound n s).games_played ≤ s.games_played + n := by
  intro n
  induction n with
  | zero =>
    intro s
    simp [Session.simulate]
  | succ m ih =>
    intro s
    simp only [Session.simulate]
    by_cases hb : (sessionStep playRound s).table.dealer.bankroll < 0
    · rw [if_pos hb, sessionStep_games_played]
      omega
    · rw [if_neg hb]
      have := ih (sessionStep playRound s)
      rw [sessionStep_games_played] at this
      omega

/-- Once the dealer's bankroll is negative after round `k+1` of the
trajectory, running the session loop for any `n ≥ k+1` rounds gives exactly
the same result as running it for `k+1`: the early `return` fires no later
than round `k+1`. -/
theorem simulate_stops_of_bankrupt (playRound : Table → Table) :
    ∀ (k n : Nat) (s : SessionState), k + 1 ≤ n →
      ((sessionStep playRound)^[k + 1] s).table.dealer.bankroll < 0 →
      Session.simulate playRound n s = Session.simulate playRound (k + 1) s := by
  intro k
  induction k with
  | zero =>
    intro n s hn hneg
    obtain ⟨m, rfl⟩ : ∃ m, n = m + 1 := ⟨n - 1, by omega⟩
    rw [Function.iterate_one] at hneg
    simp only [Session.simulate]
    rw [if_pos hneg, if_pos hneg]
  | succ k ih =>
    intro n s hn hneg
    obtain ⟨m, rfl⟩ : ∃ m, n = m + 1 := ⟨n - 1, by omega⟩
    have hneg' : ((sessionStep playRound)^[k + 1] (sessionStep playRound s)).table.dealer.bankroll < 0 := by
      rw [← Function.iterate_succ_apply]
      exact hneg
    simp only [Session.simulate]
    by_cases hb : (sessionStep playRound s).table.dealer.bankroll < 0
    · rw [if_pos hb, if_pos hb]
    · rw [if_neg hb, if_neg hb]
      exact ih m (sessionStep playRound s) (by omega) hneg'

/-- Claim C8: if the dealer's bankroll is negative after round `k` of an
`N`-round session (`1 ≤ k < N`), `Session.simulate` performs no round after
round `k`: its result is exactly that of a `k`-round session, and at most
`k` rounds are counted as played. -/
theorem C8_no_round_after_bankruptcy
    (playRound : Table → Table) (N k : Nat) (s : SessionState)
    (hk : 1 ≤ k) (hkN : k < N)
    (hneg : ((sessionStep playRound)^[k] s).table.dealer.bankroll < 0) :
    Session.simulate playRound N s = Session.simulate playRound k s ∧
    (Session.simulate playRound N s).games_played ≤ s.games_played + k := by
  obtain ⟨j, rfl⟩ : ∃ j, k = j + 1 := ⟨k - 1, by omega⟩
  have heq := simulate_stops_of_bankrupt playRound j N s (by omega) hneg
  refine ⟨heq, ?_⟩
  rw [heq]
  exact simulate_games_played_le playRound (j + 1) s

/-- Claim C8, witness: with a round that costs the dealer 1 starting from
bankroll 0, the dealer is bankrupt after round 1, so a 3-round session
equals the 1-round session and plays at most 1 round. -/
theorem C8_witness :
    Session.simulate drainRound 3 sessionStart = Session.simulate drainRound 1 sessionStart ∧
    (Session.simulate drainRound 3 sessionStart).games_played ≤ sessionStart.games_played + 1 :=
  C8_no_round_after_bankruptcy drainRound 3 1 sessionStart (by decide) (by decide) (by decide)

end Blackjack
